import Mathlib

/-!
Verification of the legal-snips-mcp snippet servers.

Shallow embedding of the two backends:
* `legal_snippets_server.py` (flat JSON file store) — namespace `Json`,
* `legal_snippets_postgres_server.py` (relational store with pgvector
  similarity search) — namespace `Pg`.

Modelling conventions:
* Wall-clock reads (`datetime.now()` / `CURRENT_TIMESTAMP`) are a `now : Nat`
  argument; one tool call reads a single time.
* Embedding-model inference (`SentenceTransformer.encode`) is an abstract
  parameter `embed : String → List ℚ`; vectors are rational lists, the
  real-valued cosine machinery of pgvector is `cosineSimilarity` below.
* The JSON backend persists via load/save of the whole document: each tool is
  a function `JsonData → JsonData × result`.  The JSON tools have no
  try/except, so a failing load propagates; `Json.runTool` is that common
  prologue.  Every Postgres tool wraps its whole body in
  `try ... except Exception`, modelled by the trailing `fault` argument:
  `some e` is an underlying store/model failure, `none` the healthy path.
* SQL `x ILIKE '%' || q || '%'` is `likeMatch` over case-folded char lists,
  `ORDER BY` is `List.mergeSort` with the corresponding comparator, `LIMIT`
  is `List.take`, array overlap `&&` is `tagsOverlap`, `COALESCE` is
  `Option.getD`.
* pgvector's `combined_embedding <=> q` (cosine distance) ordering and the
  threshold test `1 - (e <=> q) >= t` are executable through the signed
  square `sgnSq`: `simKey q e = sgnSq (q ⬝ e) / ((q ⬝ q) * (e ⬝ e))` is the
  image of the cosine similarity under the strictly monotone map
  `x ↦ sgn x * x ^ 2`, so comparisons of `simKey` agree with comparisons of
  the (irrational) cosine similarity; the bridge lemmas prove this.
-/

namespace LegalSnips

/-! ### Text helpers: Python `str.lower` / `in`, SQL `ILIKE` -/

/-- Case-folded character list of a string (Python `s.lower()` on the ASCII
fragment). -/
def lowerL (s : String) : List Char := s.toList.map Char.toLower

/-- Leading-segment test on character lists. -/
def startsWithL : List Char → List Char → Bool
  | [], _ => true
  | _ :: _, [] => false
  | c :: ps, d :: ts => c = d && startsWithL ps ts

/-- Python substring test `q in t` on character lists (haystack first). -/
def containsL : List Char → List Char → Bool
  | [], q => startsWithL q []
  | c :: ts, q => startsWithL q (c :: ts) || containsL ts q

/-- Case-insensitive substring test, as the JSON backend's
`query.lower() in field.lower()`. -/
def ciContains (hay pat : String) : Bool := containsL (lowerL hay) (lowerL pat)

mutual

/-- SQL `LIKE` pattern matching over already case-folded character lists:
`%` matches any run (`likeStar` scans the candidate suffixes), `_` any one
character, backslash escapes the next pattern character (`likeEsc`).  (A
pattern ending in a bare escape is an error in Postgres; the model returns
`false` there.) -/
def likeMatch : List Char → List Char → Bool
  | [], [] => true
  | [], _ :: _ => false
  | c :: ps, [] => if c = '%' then likeStar ps [] else false
  | c :: ps, d :: ts =>
    if c = '%' then likeStar ps (d :: ts)
    else if c = '\\' then likeEsc ps (d :: ts)
    else (if c = '_' then true else c = d) && likeMatch ps ts
termination_by p t => (p.length, t.length, 1)

/-- Escape step of `likeMatch`: the pattern character after the backslash is
matched literally. -/
def likeEsc : List Char → List Char → Bool
  | [], _ => false
  | _ :: _, [] => false
  | p :: ps, d :: ts => p = d && likeMatch ps ts
termination_by ps t => (ps.length + 1, t.length, 0)

/-- Wildcard step of `likeMatch`: `%` followed by `ps` matches a text when
`ps` matches some suffix of it. -/
def likeStar : List Char → List Char → Bool
  | ps, [] => likeMatch ps []
  | ps, d :: ts => likeMatch ps (d :: ts) || likeStar ps ts
termination_by ps t => (ps.length + 1, t.length, 0)

end

/-- `field ILIKE '%' || query || '%'` of the Postgres backend:
case-insensitive `LIKE` with the query wrapped in `%` wildcards. -/
def ilikeSub (hay q : String) : Bool :=
  likeMatch ('%' :: (lowerL q ++ [ '%' ])) (lowerL hay)

/-- Python truthiness of an optional string argument (`if citation:`):
present and non-empty. -/
def truthyS : Option String → Bool
  | none => false
  | some s => !(s = "")

/-- Python truthiness of an optional string-list argument (`if tags:`):
present and non-empty. -/
def truthyL : Option (List String) → Bool
  | none => false
  | some l => !l.isEmpty

/-- Python `new or old` for an optional string: the argument when truthy,
otherwise the fallback. -/
def pyOr (new : Option String) (old : String) : String :=
  match new with
  | none => old
  | some s => if s = "" then old else s

/-- Python `new or old` for an optional list (used by the JSON backend's
`if tags: snippet["tags"] = tags`). -/
def pyOrL (new : Option (List String)) (old : List String) : List String :=
  match new with
  | none => old
  | some l => if l.isEmpty then old else l

/-! ### Embedding vectors and pgvector cosine machinery -/

/-- Dot product of two rational vectors (pgvector inner product; extra
components of the longer vector are ignored, as both sides are always
384-long in the database). -/
def dotP (a b : List ℚ) : ℚ := (List.zipWith (fun x y => x * y) a b).sum

/-- Signed square `x ↦ sgn x * x ^ 2`, a strictly monotone bijection of a
linear ordered field used to compare cosine similarities without square
roots. -/
def sgnSq {α : Type} [LinearOrderedField α] (x : α) : α :=
  if 0 ≤ x then x ^ 2 else -(x ^ 2)

/-- Executable sort/filter key for pgvector cosine similarity of `e` to `q`:
the signed square of the cosine similarity, namely
`sgn (q ⬝ e) * (q ⬝ e) ^ 2 / ((q ⬝ q) * (e ⬝ e))`.  Comparisons of
`simKey` coincide with comparisons of the real cosine similarity (lemma
`simKey_le_simKey_iff`), which is what `ORDER BY e <=> q` and
`1 - (e <=> q) >= t` observe. -/
def simKey (q e : List ℚ) : ℚ := sgnSq (dotP q e) / (dotP q q * dotP e e)

/-- Cosine similarity of two stored vectors, over the reals. -/
noncomputable def cosineSimilarity (a b : List ℚ) : ℝ :=
  (dotP a b : ℝ) / (Real.sqrt ((dotP a a : ℚ) : ℝ) * Real.sqrt ((dotP b b : ℚ) : ℝ))

/-- pgvector's `a <=> b` cosine distance. -/
noncomputable def cosineDistance (a b : List ℚ) : ℝ := 1 - cosineSimilarity a b

/-- The `similarity_score` column the Postgres backend selects:
`1 - (combined_embedding <=> query_embedding)`. -/
noncomputable def similarityScore (q e : List ℚ) : ℝ := 1 - cosineDistance e q

/-! ### JSON-file backend (`legal_snippets_server.py`) -/

/-- One snippet record of the JSON document (schema of `create_snippet`,
lines 32-41). -/
structure Snip where
  id : Nat
  citation : String
  key_language : String
  tags : List String
  context : String
  case_type : String
  created_at : Nat
  updated_at : Nat
deriving DecidableEq

/-- The whole persisted document: `{"snippets": [...], "next_id": n}`. -/
structure JsonData where
  snippets : List Snip
  next_id : Nat
deriving DecidableEq

/-- Result shape of `create_snippet`. -/
structure CreateRes where
  status : String
  snippet_id : Option Nat
  message : String
deriving DecidableEq

/-- Result shape of `update_snippet` / `delete_snippet`. -/
structure OpRes where
  status : String
  message : String
deriving DecidableEq

/-- `load_snippets()` when no file exists yet. -/
def loadDefault : JsonData := { snippets := [], next_id := 1 }

/-- Common prologue of every JSON tool: `data = load_snippets()` with no
try/except around it, so a failing load propagates to the caller. -/
def Json.runTool {α : Type} (load : Except String JsonData) (body : JsonData → α) :
    Except String α :=
  match load with
  | .error e => .error e
  | .ok d => .ok (body d)

/-- `create_snippet` of the JSON backend (lines 21-47): append a record with
id `next_id`, increment the counter, save. -/
def Json.create_snippet (d : JsonData) (citation key_language : String)
    (tags : List String) (context case_type : String) (now : Nat) :
    JsonData × CreateRes :=
  let s : Snip :=
    { id := d.next_id, citation := citation, key_language := key_language,
      tags := tags, context := context, case_type := case_type,
      created_at := now, updated_at := now }
  ({ snippets := d.snippets ++ [s], next_id := d.next_id + 1 },
   { status := "success", snippet_id := some d.next_id,
     message := "Created snippet " ++ toString d.next_id ++ " for " ++ citation })

/-- Free-text hit of the JSON backend (line 57-59): case-insensitive
substring of citation, key_language or context. -/
def Json.textHit (s : Snip) (query : String) : Bool :=
  ciContains s.citation query || ciContains s.key_language query ||
    ciContains s.context query

/-- Tag hit of the JSON backend (line 62): some supplied tag is among the
snippet's tags. -/
def Json.tagHit (s : Snip) (ts : List String) : Bool :=
  ts.any (fun t => s.tags.contains t)

/-- The `if / elif / elif` chain of `search_snippets` (lines 55-66): a text
hit when the query is truthy, else a tag hit when tags are truthy, else
include everything when no criterion was supplied. -/
def Json.matchSnip (query : String) (tags : Option (List String)) (s : Snip) : Bool :=
  if !query.isEmpty && Json.textHit s query then true
  else if truthyL tags && Json.tagHit s (tags.getD []) then true
  else if query.isEmpty && !truthyL tags then true
  else false

/-- `search_snippets` of the JSON backend (lines 49-68): a pass over the
stored list in stored order (there is no sorting step). -/
def Json.search_snippets (d : JsonData) (query : String)
    (tags : Option (List String)) : List Snip :=
  d.snippets.filter (Json.matchSnip query tags)

/-- `get_snippet` of the JSON backend (lines 70-77): first record with the
id, else `None`. -/
def Json.get_snippet (d : JsonData) (snippet_id : Nat) : Option Snip :=
  d.snippets.find? (fun s => s.id = snippet_id)

/-- Field replacement of `update_snippet` (lines 93-98): each truthy argument
overwrites, `updated_at` is always refreshed. -/
def Json.updFields (s : Snip) (citation key_language : Option String)
    (tags : Option (List String)) (context case_type : Option String)
    (now : Nat) : Snip :=
  { s with
    citation := pyOr citation s.citation,
    key_language := pyOr key_language s.key_language,
    tags := pyOrL tags s.tags,
    context := pyOr context s.context,
    case_type := pyOr case_type s.case_type,
    updated_at := now }

/-- The `for snippet in data["snippets"]` loop of `update_snippet`: rewrite
the first record with the id and report whether one was found. -/
def Json.updateFirst (l : List Snip) (snippet_id : Nat)
    (citation key_language : Option String) (tags : Option (List String))
    (context case_type : Option String) (now : Nat) : List Snip × Bool :=
  match l with
  | [] => ([], false)
  | s :: rest =>
    if s.id = snippet_id then
      (Json.updFields s citation key_language tags context case_type now :: rest, true)
    else
      let r := Json.updateFirst rest snippet_id citation key_language tags
        context case_type now
      (s :: r.1, r.2)

/-- `update_snippet` of the JSON backend (lines 79-103). -/
def Json.update_snippet (d : JsonData) (snippet_id : Nat)
    (citation key_language : Option String) (tags : Option (List String))
    (context case_type : Option String) (now : Nat) : JsonData × OpRes :=
  let r := Json.updateFirst d.snippets snippet_id citation key_language tags
    context case_type now
  if r.2 then
    ({ d with snippets := r.1 },
     { status := "success", message := "Updated snippet " ++ toString snippet_id })
  else
    (d, { status := "error",
          message := "Snippet " ++ toString snippet_id ++ " not found" })

/-- `delete_snippet` of the JSON backend (lines 105-116): drop every record
with the id; success exactly when the list shrank. -/
def Json.delete_snippet (d : JsonData) (snippet_id : Nat) : JsonData × OpRes :=
  let remaining := d.snippets.filter (fun s => !(s.id = snippet_id))
  if remaining.length < d.snippets.length then
    ({ d with snippets := remaining },
     { status := "success", message := "Deleted snippet " ++ toString snippet_id })
  else
    (d, { status := "error",
          message := "Snippet " ++ toString snippet_id ++ " not found" })

/-- `list_tags` of the JSON backend (lines 118-125): `sorted(set(...))`. -/
def Json.list_tags (d : JsonData) : List String :=
  ((d.snippets.flatMap (fun s => s.tags)).dedup).mergeSort (fun a b => a ≤ b)

/-- Text rendering of one snippet in `export_snippets` (lines 134-141). -/
def Json.renderText (s : Snip) : String :=
  "Citation: " ++ s.citation ++ "\n" ++
  "Key Language: " ++ s.key_language ++ "\n" ++
  "Tags: " ++ String.intercalate ", " s.tags ++ "\n" ++
  (if s.context = "" then "" else "Context: " ++ s.context ++ "\n") ++
  "Created: " ++ toString s.created_at ++ "\n" ++
  String.mk (List.replicate 50 '-') ++ "\n"

/-- JSON rendering of one snippet (stand-in for `json.dumps`). -/
def Json.renderJson (s : Snip) : String :=
  "\x7b\"id\": " ++ toString s.id ++ ", \"citation\": \"" ++ s.citation ++
  "\", \"key_language\": \"" ++ s.key_language ++ "\"\x7d"

/-- `export_snippets` of the JSON backend (lines 127-144): the stored order,
as text lines or as a JSON dump. -/
def Json.export_snippets (d : JsonData) (format : String) : String :=
  if format = "text" then
    String.join (d.snippets.map Json.renderText)
  else
    "[" ++ String.intercalate ", " (d.snippets.map Json.renderJson) ++ "]"

/-- One create-or-delete step against the JSON store, for the id-lifecycle
invariant. -/
inductive JOp where
  | create : String → String → List String → String → String → Nat → JOp
  | del : Nat → JOp

/-- Apply one `JOp` to the stored document. -/
def applyOp (d : JsonData) : JOp → JsonData
  | .create c k tg cx ct t => (Json.create_snippet d c k tg cx ct t).1
  | .del i => (Json.delete_snippet d i).1

/-- Apply a sequence of create/delete operations. -/
def applyOps (d : JsonData) (ops : List JOp) : JsonData := ops.foldl applyOp d

/-- Store invariant of the JSON document: every stored id is below `next_id`
and ids are pairwise distinct. -/
def WFData (d : JsonData) : Prop :=
  (∀ s ∈ d.snippets, s.id < d.next_id) ∧ (d.snippets.map (fun s => s.id)).Nodup

/-! ### Postgres backend (`legal_snippets_postgres_server.py`) -/

/-- One row of the `legal_snippets` table (lines 67-81). -/
structure PgRow where
  id : Nat
  citation : String
  key_language : String
  tags : List String
  context : String
  case_type : String
  created_at : Nat
  updated_at : Nat
  citation_embedding : List ℚ
  key_language_embedding : List ℚ
  combined_embedding : List ℚ
deriving DecidableEq

/-- The table plus its `SERIAL` id sequence. -/
structure PgDb where
  rows : List PgRow
  next_id : Nat
deriving DecidableEq

/-- Return shape of `get_snippet`: a row, `None`, or the caught-error dict
`{"error": ...}`. -/
inductive GetRes where
  | found : PgRow → GetRes
  | absent : GetRes
  | err : String → GetRes
deriving DecidableEq

/-- Return shape of the row-list tools: the rows, or the caught-error list
`[{"error": ...}]`. -/
inductive RowsRes where
  | rows : List PgRow → RowsRes
  | err : String → RowsRes
deriving DecidableEq

/-- `generate_embeddings` (lines 101-116): separate vectors for citation,
key language, and the structured concatenation with optional context. -/
def generate_embeddings (embed : String → List ℚ) (citation key_language : String)
    (context : String) : List ℚ × List ℚ × List ℚ :=
  let combined_text :=
    "Citation: " ++ citation ++ ". Key Language: " ++ key_language ++
      (if context = "" then "" else " Context: " ++ context)
  (embed citation, embed key_language, embed combined_text)

/-- Free-text hit of the Postgres `search_snippets`:
`citation ILIKE $1 OR key_language ILIKE $1 OR context ILIKE $1` with
`$1 = '%' || query || '%'`. -/
def pgTextHit (r : PgRow) (query : String) : Bool :=
  ilikeSub r.citation query || ilikeSub r.key_language query ||
    ilikeSub r.context query

/-- SQL array overlap `tags && $n`: the row carries at least one supplied
tag. -/
def tagsOverlap (rowTags given : List String) : Bool :=
  rowTags.any (fun t => given.contains t)

/-- Comparator of `ORDER BY updated_at DESC`. -/
def byUpdatedDesc (a b : PgRow) : Bool := b.updated_at ≤ a.updated_at

/-- Comparator of `ORDER BY created_at` (export). -/
def byCreatedAsc (a b : PgRow) : Bool := a.created_at ≤ b.created_at

/-- Comparator of `ORDER BY combined_embedding <=> $q` (ascending cosine
distance = descending cosine similarity), through the executable key. -/
def bySimDesc (q : List ℚ) (a b : PgRow) : Bool :=
  simKey q b.combined_embedding ≤ simKey q a.combined_embedding

/-- The four query branches of the Postgres `search_snippets` (lines
151-195), gated by Python truthiness of `query` and `tags`, all ordered by
`updated_at DESC`. -/
def Pg.searchRows (db : PgDb) (query : String) (tags : Option (List String)) :
    List PgRow :=
  let base :=
    if !query.isEmpty && truthyL tags then
      db.rows.filter (fun r => pgTextHit r query && tagsOverlap r.tags (tags.getD []))
    else if !query.isEmpty then
      db.rows.filter (fun r => pgTextHit r query)
    else if truthyL tags then
      db.rows.filter (fun r => tagsOverlap r.tags (tags.getD []))
    else
      db.rows
  base.mergeSort byUpdatedDesc

/-- Row set of `semantic_search` (lines 197-242): optional tag pre-filter
AND-ed with the inclusive threshold `1 - (combined_embedding <=> $q) >= t`,
ranked by ascending cosine distance, capped by `LIMIT`. -/
def Pg.semanticSearchRows (embed : String → List ℚ) (db : PgDb) (query : String)
    (lim : Nat) (threshold : ℚ) (tags : Option (List String)) : List PgRow :=
  let q := embed query
  let keep : PgRow → Bool := fun r => sgnSq threshold ≤ simKey q r.combined_embedding
  let base :=
    if truthyL tags then
      db.rows.filter (fun r => tagsOverlap r.tags (tags.getD []) && keep r)
    else
      db.rows.filter keep
  (base.mergeSort (bySimDesc q)).take lim

/-- Row lookup `SELECT ... WHERE id = $1` (unique primary key). -/
def Pg.getRow (db : PgDb) (snippet_id : Nat) : Option PgRow :=
  db.rows.find? (fun r => r.id = snippet_id)

/-- Insert of `create_snippet` (lines 118-149): embeddings first, then the
`INSERT ... RETURNING id` against the serial sequence. -/
def Pg.createRows (embed : String → List ℚ) (db : PgDb)
    (citation key_language : String) (tags : List String)
    (context case_type : String) (now : Nat) : PgDb × Nat :=
  let e := generate_embeddings embed citation key_language context
  let row : PgRow :=
    { id := db.next_id, citation := citation, key_language := key_language,
      tags := tags, context := context, case_type := case_type,
      created_at := now, updated_at := now,
      citation_embedding := e.1, key_language_embedding := e.2.1,
      combined_embedding := e.2.2 }
  ({ rows := db.rows ++ [row], next_id := db.next_id + 1 }, db.next_id)

/-- The column values `update_snippet` (lines 260-311) computes from the
fetched current row: `new_x = x or current['x']` for the text fields; when
any text argument is truthy the embeddings are regenerated and every content
column is set, otherwise only `tags`/`case_type` via `COALESCE` and
`updated_at`. -/
def Pg.updRow (embed : String → List ℚ) (cur : PgRow)
    (citation key_language : Option String) (tags : Option (List String))
    (context case_type : Option String) (now : Nat) : PgRow :=
  if truthyS citation || truthyS key_language || truthyS context then
    let nc := pyOr citation cur.citation
    let nk := pyOr key_language cur.key_language
    let nx := pyOr context cur.context
    let e := generate_embeddings embed nc nk nx
    { cur with
      citation := nc, key_language := nk, tags := tags.getD cur.tags,
      context := nx, case_type := case_type.getD cur.case_type,
      citation_embedding := e.1, key_language_embedding := e.2.1,
      combined_embedding := e.2.2, updated_at := now }
  else
    { cur with
      tags := tags.getD cur.tags, case_type := case_type.getD cur.case_type,
      updated_at := now }

/-- The fetch-then-`UPDATE ... WHERE id` body of `update_snippet`: values are
computed once from the fetched row and written to every row with the id
(the primary key makes that row unique); `id` and `created_at` are not
assigned by the `SET` list. -/
def Pg.updateRows (embed : String → List ℚ) (db : PgDb) (snippet_id : Nat)
    (citation key_language : Option String) (tags : Option (List String))
    (context case_type : Option String) (now : Nat) : PgDb × Bool :=
  match Pg.getRow db snippet_id with
  | none => (db, false)
  | some cur =>
    let u := Pg.updRow embed cur citation key_language tags context case_type now
    ({ db with
       rows := db.rows.map (fun r =>
         if r.id = snippet_id then { u with id := r.id, created_at := r.created_at }
         else r) },
     true)

/-- `create_snippet` tool (lines 118-149): the whole body inside
`try ... except Exception as e`. -/
def Pg.create_snippet (embed : String → List ℚ) (db : PgDb)
    (citation key_language : String) (tags : List String)
    (context case_type : String) (now : Nat) (fault : Option String) :
    PgDb × CreateRes :=
  match fault with
  | some e =>
    (db, { status := "error", snippet_id := none,
           message := "Failed to create snippet: " ++ e })
  | none =>
    let r := Pg.createRows embed db citation key_language tags context case_type now
    (r.1, { status := "success", snippet_id := some r.2,
            message := "Created snippet " ++ toString r.2 ++ " for " ++ citation })

/-- `search_snippets` tool (lines 151-195). -/
def Pg.search_snippets (db : PgDb) (query : String) (tags : Option (List String))
    (fault : Option String) : RowsRes :=
  match fault with
  | some e => .err ("Search failed: " ++ e)
  | none => .rows (Pg.searchRows db query tags)

/-- `semantic_search` tool (lines 197-242); in the Python signature `lim`
defaults to 10 and `threshold` to 0.7. -/
def Pg.semantic_search (embed : String → List ℚ) (db : PgDb) (query : String)
    (lim : Nat) (threshold : ℚ) (tags : Option (List String))
    (fault : Option String) : RowsRes :=
  match fault with
  | some e => .err ("Semantic search failed: " ++ e)
  | none => .rows (Pg.semanticSearchRows embed db query lim threshold tags)

/-- `get_snippet` tool (lines 244-258). -/
def Pg.get_snippet (db : PgDb) (snippet_id : Nat) (fault : Option String) : GetRes :=
  match fault with
  | some e => .err ("Failed to get snippet: " ++ e)
  | none =>
    match Pg.getRow db snippet_id with
    | some r => .found r
    | none => .absent

/-- `update_snippet` tool (lines 260-311). -/
def Pg.update_snippet (embed : String → List ℚ) (db : PgDb) (snippet_id : Nat)
    (citation key_language : Option String) (tags : Option (List String))
    (context case_type : Option String) (now : Nat) (fault : Option String) :
    PgDb × OpRes :=
  match fault with
  | some e => (db, { status := "error", message := "Failed to update snippet: " ++ e })
  | none =>
    let r := Pg.updateRows embed db snippet_id citation key_language tags
      context case_type now
    if r.2 then
      (r.1, { status := "success", message := "Updated snippet " ++ toString snippet_id })
    else
      (db, { status := "error",
             message := "Snippet " ++ toString snippet_id ++ " not found" })

/-- `delete_snippet` tool (lines 313-325): `DELETE ... WHERE id = $1`
removes every matching row; success exactly when the command tag reads
`DELETE 1`. -/
def Pg.delete_snippet (db : PgDb) (snippet_id : Nat) (fault : Option String) :
    PgDb × OpRes :=
  match fault with
  | some e => (db, { status := "error", message := "Failed to delete snippet: " ++ e })
  | none =>
    let deleted := db.rows.countP (fun r => r.id = snippet_id)
    let db2 : PgDb := { db with rows := db.rows.filter (fun r => !(r.id = snippet_id)) }
    if deleted = 1 then
      (db2, { status := "success", message := "Deleted snippet " ++ toString snippet_id })
    else
      (db2, { status := "error",
              message := "Snippet " ++ toString snippet_id ++ " not found" })

/-- `list_tags` tool (lines 327-335): `SELECT DISTINCT unnest(tags) ...
ORDER BY tag`. -/
def Pg.list_tags (db : PgDb) (fault : Option String) : List String :=
  match fault with
  | some e => [ "Error: " ++ e ]
  | none => ((db.rows.flatMap (fun r => r.tags)).dedup).mergeSort (fun a b => a ≤ b)

/-- Text rendering of one row in `export_snippets` (lines 350-360). -/
def Pg.renderText (r : PgRow) : String :=
  "ID: " ++ toString r.id ++ "\n" ++
  "Citation: " ++ r.citation ++ "\n" ++
  "Key Language: " ++ r.key_language ++ "\n" ++
  "Tags: " ++ String.intercalate ", " r.tags ++ "\n" ++
  (if r.context = "" then "" else "Context: " ++ r.context ++ "\n") ++
  "Case Type: " ++ r.case_type ++ "\n" ++
  "Created: " ++ toString r.created_at ++ "\n" ++
  String.mk (List.replicate 50 '-') ++ "\n"

/-- JSON rendering of one row (stand-in for `json.dumps`). -/
def Pg.renderJson (r : PgRow) : String :=
  "\x7b\"id\": " ++ toString r.id ++ ", \"citation\": \"" ++ r.citation ++
  "\", \"key_language\": \"" ++ r.key_language ++ "\"\x7d"

/-- `export_snippets` tool (lines 337-372): rows ordered by `created_at`
ascending, rendered as text or JSON; a caught failure comes back as the
plain string `Export failed: ...`. -/
def Pg.export_snippets (db : PgDb) (format : String) (fault : Option String) : String :=
  match fault with
  | some e => "Export failed: " ++ e
  | none =>
    let rows := db.rows.mergeSort byCreatedAsc
    if format = "text" then String.join (rows.map Pg.renderText)
    else "[" ++ String.intercalate ", " (rows.map Pg.renderJson) ++ "]"

/-- Row set of `find_similar_snippets` (lines 374-405): `none` when the
reference id is absent, else every other row ranked by cosine similarity to
the reference row's combined embedding, capped by `LIMIT`. -/
def Pg.findSimilarRows (db : PgDb) (snippet_id : Nat) (lim : Nat) :
    Option (List PgRow) :=
  match Pg.getRow db snippet_id with
  | none => none
  | some ref =>
    some (((db.rows.filter (fun r => !(r.id = snippet_id))).mergeSort
      (bySimDesc ref.combined_embedding)).take lim)

/-- `find_similar_snippets` tool (lines 374-405); in the Python signature
`lim` defaults to 5. -/
def Pg.find_similar_snippets (db : PgDb) (snippet_id : Nat) (lim : Nat)
    (fault : Option String) : RowsRes :=
  match fault with
  | some e => .err ("Failed to find similar snippets: " ++ e)
  | none =>
    match Pg.findSimilarRows db snippet_id lim with
    | none => .err ("Snippet " ++ toString snippet_id ++ " not found")
    | some rs => .rows rs

/-! ### Concrete fixtures for witnesses and counterexamples -/

/-- Constant unit embedding, a stand-in inference function for concrete
runs. -/
def embed0 : String → List ℚ := fun _ => [ 1 ]

/-- A snippet whose citation matches query `"a"` but which carries none of
the tags `["x"]`. -/
def snipA : Snip :=
  { id := 1, citation := "abc", key_language := "kl", tags := [ "y" ],
    context := "", case_type := "civil", created_at := 0, updated_at := 0 }

/-- Store holding only `snipA`. -/
def dA : JsonData := { snippets := [ snipA ], next_id := 2 }

/-- Two snippets in stored order with ascending `updated_at`. -/
def snipOld : Snip :=
  { id := 1, citation := "first", key_language := "kl1", tags := [],
    context := "", case_type := "civil", created_at := 0, updated_at := 1 }

/-- Companion of `snipOld` with the larger `updated_at`. -/
def snipNew : Snip :=
  { id := 2, citation := "second", key_language := "kl2", tags := [],
    context := "", case_type := "civil", created_at := 0, updated_at := 2 }

/-- Store where stored order is the opposite of most-recently-updated
first. -/
def dAsc : JsonData := { snippets := [ snipOld, snipNew ], next_id := 3 }

/-- One Postgres row with tags `["negligence"]` and unit embeddings. -/
def rowNeg : PgRow :=
  { id := 1, citation := "Smith v. Jones", key_language := "duty of care",
    tags := [ "negligence" ], context := "", case_type := "civil",
    created_at := 0, updated_at := 0,
    citation_embedding := [ 1 ], key_language_embedding := [ 1 ],
    combined_embedding := [ 1 ] }

/-- Database holding only `rowNeg`. -/
def dbNeg : PgDb := { rows := [ rowNeg ], next_id := 2 }

/-! ### Lemmas: substring and `LIKE` -/

theorem startsWithL_iff (q t : List Char) :
    startsWithL q t = true ↔ ∃ r, t = q ++ r := by
  induction q generalizing t with
  | nil => simp [startsWithL]
  | cons c ps ih =>
    cases t with
    | nil => simp [startsWithL]
    | cons d ts =>
      simp only [startsWithL, Bool.and_eq_true, decide_eq_true_eq, ih, List.cons_append,
        List.cons.injEq]
      constructor
      · rintro ⟨h1, r, h2⟩
        exact ⟨r, h1.symm, h2⟩
      · rintro ⟨r, h1, h2⟩
        exact ⟨h1.symm, r, h2⟩

theorem containsL_iff (t q : List Char) :
    containsL t q = true ↔ ∃ n, startsWithL q (t.drop n) = true := by
  induction t with
  | nil =>
    simp [containsL]
  | cons c ts ih =>
    simp only [containsL, Bool.or_eq_true, ih]
    constructor
    · rintro (h | ⟨n, h⟩)
      · exact ⟨0, h⟩
      · exact ⟨n + 1, h⟩
    · rintro ⟨n, h⟩
      cases n with
      | zero => exact Or.inl h
      | succ m => exact Or.inr ⟨m, h⟩

theorem likeStar_nil_pat (t : List Char) : likeStar [] t = true := by
  induction t with
  | nil => simp [likeStar, likeMatch]
  | cons c ts ih => simp [likeStar, ih]

theorem likeStar_iff (p t : List Char) :
    likeStar p t = true ↔ ∃ n, likeMatch p (t.drop n) = true := by
  induction t with
  | nil =>
    rw [likeStar]
    constructor
    · intro h
      exact ⟨0, h⟩
    · rintro ⟨n, h⟩
      simpa using h
  | cons c ts ih =>
    rw [likeStar]
    simp only [Bool.or_eq_true, ih]
    constructor
    · rintro (h | ⟨n, h⟩)
      · exact ⟨0, h⟩
      · exact ⟨n + 1, h⟩
    · rintro ⟨n, h⟩
      cases n with
      | zero => exact Or.inl h
      | succ m => exact Or.inr ⟨m, h⟩

theorem likeMatch_pct (p t : List Char) : likeMatch ('%' :: p) t = likeStar p t := by
  cases t with
  | nil => rw [likeMatch, if_pos rfl, likeStar]
  | cons d ts => rw [likeMatch, if_pos rfl]

theorem likeMatch_lit (q p t : List Char)
    (hq : ∀ c ∈ q, c ≠ '%' ∧ c ≠ '_' ∧ c ≠ '\\') :
    likeMatch (q ++ p) t = true ↔ ∃ t2, t = q ++ t2 ∧ likeMatch p t2 = true := by
  induction q generalizing t with
  | nil => simp
  | cons c qs ih =>
    have hc := hq c (List.mem_cons_self c qs)
    have hqs : ∀ x ∈ qs, x ≠ '%' ∧ x ≠ '_' ∧ x ≠ '\\' :=
      fun x hx => hq x (List.mem_cons_of_mem c hx)
    cases t with
    | nil =>
      rw [List.cons_append, likeMatch, if_neg hc.1]
      simp
    | cons d ts =>
      rw [List.cons_append, likeMatch, if_neg hc.1, if_neg hc.2.2, if_neg hc.2.1]
      simp only [Bool.and_eq_true, decide_eq_true_eq, ih ts hqs, List.cons_append,
        List.cons.injEq]
      constructor
      · rintro ⟨h1, t2, h2, h3⟩
        exact ⟨t2, ⟨h1.symm, h2⟩, h3⟩
      · rintro ⟨t2, ⟨h1, h2⟩, h3⟩
        exact ⟨h1.symm, t2, h2, h3⟩

theorem likeMatch_pct_last (t : List Char) : likeMatch [ '%' ] t = true := by
  rw [likeMatch_pct, likeStar_nil_pat]

/-- With no `LIKE` metacharacter in the (case-folded) query, `ILIKE
'%q%'` is exactly the case-insensitive substring test of the JSON
backend. -/
theorem ilikeSub_eq_ciContains (hay q : String)
    (hq : ∀ c ∈ lowerL q, c ≠ '%' ∧ c ≠ '_' ∧ c ≠ '\\') :
    ilikeSub hay q = ciContains hay q := by
  have h : ilikeSub hay q = true ↔ ciContains hay q = true := by
    unfold ilikeSub ciContains
    rw [likeMatch_pct, likeStar_iff, containsL_iff]
    constructor
    · rintro ⟨n, h⟩
      rw [likeMatch_lit (lowerL q) [ '%' ] _ hq] at h
      obtain ⟨t2, h1, _⟩ := h
      exact ⟨n, (startsWithL_iff _ _).mpr ⟨t2, h1⟩⟩
    · rintro ⟨n, h⟩
      obtain ⟨r, hr⟩ := (startsWithL_iff _ _).mp h
      exact ⟨n, (likeMatch_lit (lowerL q) [ '%' ] _ hq).mpr ⟨r, hr, likeMatch_pct_last r⟩⟩
  cases h1 : ilikeSub hay q <;> cases h2 : ciContains hay q <;> simp_all

/-! ### Lemmas: dot products, signed squares and the cosine bridge -/

theorem dotP_cons (x : ℚ) (xs : List ℚ) (y : ℚ) (ys : List ℚ) :
    dotP (x :: xs) (y :: ys) = x * y + dotP xs ys := by
  simp [dotP]

theorem dotP_self_nonneg (a : List ℚ) : 0 ≤ dotP a a := by
  induction a with
  | nil => simp [dotP]
  | cons x xs ih =>
    rw [dotP_cons]
    nlinarith [mul_self_nonneg x]

/-- Cauchy-Schwarz for the list dot product. -/
theorem dotP_sq_le (a b : List ℚ) : dotP a b ^ 2 ≤ dotP a a * dotP b b := by
  induction a generalizing b with
  | nil => simp [dotP]
  | cons x xs ih =>
    cases b with
    | nil => simp [dotP]
    | cons y ys =>
      rw [dotP_cons, dotP_cons, dotP_cons]
      have h := ih ys
      have hA := dotP_self_nonneg xs
      have hB := dotP_self_nonneg ys
      rcases eq_or_lt_of_le hA with hA0 | hApos
      · have hd : dotP xs ys = 0 := by nlinarith [sq_nonneg (dotP xs ys)]
        rw [hd, ← hA0]
        nlinarith [mul_nonneg (mul_self_nonneg x) hB]
      · nlinarith [sq_nonneg (dotP xs ys * x - dotP xs xs * y),
          mul_nonneg (sub_nonneg.mpr h) (sq_nonneg x), hApos.le]

theorem dotP_comm (a b : List ℚ) : dotP a b = dotP b a := by
  induction a generalizing b with
  | nil => cases b <;> simp [dotP]
  | cons x xs ih =>
    cases b with
    | nil => simp [dotP]
    | cons y ys => rw [dotP_cons, dotP_cons, ih, mul_comm]

theorem sgnSq_strictMono {α : Type} [LinearOrderedField α] :
    StrictMono (sgnSq : α → α) := by
  intro x y h
  unfold sgnSq
  split
  · split
    · nlinarith
    · linarith
  · split
    · nlinarith
    · nlinarith

theorem sgnSq_le_sgnSq_iff {α : Type} [LinearOrderedField α] (x y : α) :
    sgnSq x ≤ sgnSq y ↔ x ≤ y :=
  sgnSq_strictMono.le_iff_le

theorem sgnSq_le_sq {α : Type} [LinearOrderedField α] (x : α) : sgnSq x ≤ x ^ 2 := by
  unfold sgnSq
  split
  · exact le_refl _
  · nlinarith [sq_nonneg x]

/-- The executable similarity key never exceeds 1 — the Cauchy-Schwarz bound
that makes a threshold above 1 unsatisfiable. -/
theorem simKey_le_one (q e : List ℚ) : simKey q e ≤ 1 := by
  unfold simKey
  rcases eq_or_lt_of_le (mul_nonneg (dotP_self_nonneg q) (dotP_self_nonneg e)) with h | h
  · rw [← h, div_zero]
    norm_num
  · rw [div_le_one h]
    calc sgnSq (dotP q e) ≤ dotP q e ^ 2 := sgnSq_le_sq _
      _ ≤ dotP q q * dotP e e := dotP_sq_le q e

theorem sgnSq_ratCast (x : ℚ) : ((sgnSq x : ℚ) : ℝ) = sgnSq ((x : ℝ)) := by
  unfold sgnSq
  rcases le_or_lt 0 x with h | h
  · rw [if_pos h, if_pos (by exact_mod_cast h)]
    push_cast
    ring
  · rw [if_neg (not_le.mpr h), if_neg (by exact_mod_cast (not_le.mpr h))]
    push_cast
    ring

theorem cosineSimilarity_sq (q e : List ℚ) (hq : 0 < dotP q q) (he : 0 < dotP e e) :
    cosineSimilarity q e ^ 2 =
      ((dotP q e : ℚ) : ℝ) ^ 2 / (((dotP q q : ℚ) : ℝ) * ((dotP e e : ℚ) : ℝ)) := by
  have hA : (0:ℝ) ≤ ((dotP q q : ℚ) : ℝ) := by exact_mod_cast hq.le
  have hB : (0:ℝ) ≤ ((dotP e e : ℚ) : ℝ) := by exact_mod_cast he.le
  unfold cosineSimilarity
  rw [div_pow, mul_pow, Real.sq_sqrt hA, Real.sq_sqrt hB]

theorem cosineSimilarity_nonneg_iff (q e : List ℚ) (hq : 0 < dotP q q)
    (he : 0 < dotP e e) :
    (0 ≤ cosineSimilarity q e) ↔ (0 ≤ ((dotP q e : ℚ) : ℝ)) := by
  have hsA : (0:ℝ) < Real.sqrt ((dotP q q : ℚ) : ℝ) :=
    Real.sqrt_pos.mpr (by exact_mod_cast hq)
  have hsB : (0:ℝ) < Real.sqrt ((dotP e e : ℚ) : ℝ) :=
    Real.sqrt_pos.mpr (by exact_mod_cast he)
  unfold cosineSimilarity
  rw [le_div_iff₀ (mul_pos hsA hsB), zero_mul]

/-- For nonzero vectors the rational key is the signed square of the real
cosine similarity: the key observes exactly the cosine order. -/
theorem simKey_cast (q e : List ℚ) (hq : 0 < dotP q q) (he : 0 < dotP e e) :
    ((simKey q e : ℚ) : ℝ) = sgnSq (cosineSimilarity q e) := by
  have hcast : ((simKey q e : ℚ) : ℝ) =
      sgnSq ((dotP q e : ℚ) : ℝ) / (((dotP q q : ℚ) : ℝ) * ((dotP e e : ℚ) : ℝ)) := by
    unfold simKey
    push_cast
    rw [sgnSq_ratCast]
  rw [hcast]
  rcases le_or_lt 0 ((dotP q e : ℚ) : ℝ) with h | h
  · rw [sgnSq, if_pos h, sgnSq, if_pos ((cosineSimilarity_nonneg_iff q e hq he).mpr h),
      cosineSimilarity_sq q e hq he]
  · have hneg : ¬ (0 ≤ cosineSimilarity q e) := by
      rw [cosineSimilarity_nonneg_iff q e hq he]
      exact not_le.mpr h
    rw [sgnSq, if_neg (not_le.mpr h), sgnSq, if_neg hneg,
      cosineSimilarity_sq q e hq he, neg_div]

theorem simKey_le_simKey_iff (q a b : List ℚ) (hq : 0 < dotP q q)
    (ha : 0 < dotP a a) (hb : 0 < dotP b b) :
    (simKey q a ≤ simKey q b) ↔ (cosineSimilarity q a ≤ cosineSimilarity q b) := by
  constructor
  · intro h
    have h2 : ((simKey q a : ℚ) : ℝ) ≤ ((simKey q b : ℚ) : ℝ) := by exact_mod_cast h
    rw [simKey_cast q a hq ha, simKey_cast q b hq hb] at h2
    exact (sgnSq_le_sgnSq_iff _ _).mp h2
  · intro h
    have h2 : ((simKey q a : ℚ) : ℝ) ≤ ((simKey q b : ℚ) : ℝ) := by
      rw [simKey_cast q a hq ha, simKey_cast q b hq hb]
      exact (sgnSq_le_sgnSq_iff _ _).mpr h
    exact_mod_cast h2

theorem similarityScore_eq (q e : List ℚ) :
    similarityScore q e = cosineSimilarity q e := by
  unfold similarityScore cosineDistance
  rw [show cosineSimilarity e q = cosineSimilarity q e by
    unfold cosineSimilarity
    rw [dotP_comm e q]
    ring]
  ring

/-- The SQL threshold test `1 - (e <=> q) >= t`, as the model's executable
key comparison, agrees with the real similarity-score bound. -/
theorem threshold_le_simKey_iff (q e : List ℚ) (t : ℚ) (hq : 0 < dotP q q)
    (he : 0 < dotP e e) :
    (sgnSq t ≤ simKey q e) ↔ ((t : ℝ) ≤ similarityScore q e) := by
  rw [similarityScore_eq]
  constructor
  · intro h
    have h2 : ((sgnSq t : ℚ) : ℝ) ≤ ((simKey q e : ℚ) : ℝ) := by exact_mod_cast h
    rw [simKey_cast q e hq he, sgnSq_ratCast] at h2
    exact (sgnSq_le_sgnSq_iff _ _).mp h2
  · intro h
    have h2 : ((sgnSq t : ℚ) : ℝ) ≤ ((simKey q e : ℚ) : ℝ) := by
      rw [simKey_cast q e hq he, sgnSq_ratCast]
      exact (sgnSq_le_sgnSq_iff _ _).mpr h
    exact_mod_cast h2

/-! ### Lemmas: store operations -/

theorem isEmpty_false_of_ne (s : String) (h : s ≠ "") : s.isEmpty = false := by
  cases hs : s.isEmpty
  · rfl
  · exact absurd ((String.isEmpty_iff s).mp hs) h

theorem listIsEmpty_false_of_ne {α : Type} (l : List α) (h : l ≠ []) :
    l.isEmpty = false := by
  cases l with
  | nil => exact absurd rfl h
  | cons a rest => rfl

theorem find?_middle {α : Type} (p : α → Bool) (pre post : List α) (a : α)
    (hpre : ∀ x ∈ pre, p x = false) (ha : p a = true) :
    (pre ++ a :: post).find? p = some a := by
  rw [List.find?_append, List.find?_eq_none.mpr (fun x hx => by simp [hpre x hx]),
    Option.none_or, List.find?_cons_of_pos _ ha]

theorem map_pointwise_id {α : Type} (f : α → α) (l : List α)
    (h : ∀ x ∈ l, f x = x) : l.map f = l := by
  rw [List.map_congr_left h]
  simp

theorem pyOr_falsy (o : Option String) (old : String) (h : truthyS o = false) :
    pyOr o old = old := by
  cases o with
  | none => rfl
  | some s =>
    have hs : s = "" := by
      by_contra hne
      simp [truthyS, hne] at h
    rw [pyOr, if_pos hs]

theorem pyOrL_falsy (o : Option (List String)) (old : List String)
    (h : truthyL o = false) : pyOrL o old = old := by
  cases o with
  | none => rfl
  | some l =>
    have hs : l.isEmpty = true := by
      cases he : l.isEmpty
      · simp [truthyL, he] at h
      · rfl
    rw [pyOrL, if_pos hs]

/-- The update loop rewrites exactly the first record carrying the id. -/
theorem updateFirst_spec (pre post : List Snip) (s : Snip) (i : Nat)
    (oc okl : Option String) (otg : Option (List String)) (ox oct : Option String)
    (now : Nat) (hpre : ∀ x ∈ pre, x.id ≠ i) (hs : s.id = i) :
    Json.updateFirst (pre ++ s :: post) i oc okl otg ox oct now
      = (pre ++ Json.updFields s oc okl otg ox oct now :: post, true) := by
  induction pre with
  | nil => simp [Json.updateFirst, hs]
  | cons a rest ih =>
    have ha : ¬ (a.id = i) := hpre a (List.mem_cons_self a rest)
    have ih2 := ih (fun x hx => hpre x (List.mem_cons_of_mem a hx))
    simp only [List.cons_append, Json.updateFirst, if_neg ha, List.append_eq, ih2]

/-! ### Claim C1 -/

/-- Claim C1, counterexample: a JSON-backend tool body runs `load_snippets`
with no try/except, so a failing load propagates as an uncaught fault
instead of a structured error value — refuting the claim for the JSON
backend at this concrete input. -/
theorem C1_json_uncaught_cex :
    Json.runTool (Except.error "disk failure") (fun d =>
      Json.create_snippet d "Smith v. Jones" "duty of care" [ "negligence" ] "" "civil" 0)
      = Except.error "disk failure" := rfl

/-- Claim C1, amended: every Postgres-backend tool wraps its body in
`try ... except Exception` and converts any underlying failure into the
in-band error value of its own return shape, for every input and every
injected failure. -/
theorem C1_pg_tools_catch_failures (embed : String → List ℚ) (db : PgDb)
    (cit kl : String) (tg : List String) (cx ct : String) (now : Nat)
    (q : String) (tags : Option (List String)) (lim : Nat) (th : ℚ) (i : Nat)
    (oc okl : Option String) (otg : Option (List String)) (ox oct : Option String)
    (fm : String) (e : String) :
    Pg.create_snippet embed db cit kl tg cx ct now (some e)
        = (db, { status := "error", snippet_id := none,
                 message := "Failed to create snippet: " ++ e })
  ∧ Pg.search_snippets db q tags (some e) = RowsRes.err ("Search failed: " ++ e)
  ∧ Pg.semantic_search embed db q lim th tags (some e)
        = RowsRes.err ("Semantic search failed: " ++ e)
  ∧ Pg.get_snippet db i (some e) = GetRes.err ("Failed to get snippet: " ++ e)
  ∧ Pg.update_snippet embed db i oc okl otg ox oct now (some e)
        = (db, { status := "error", message := "Failed to update snippet: " ++ e })
  ∧ Pg.delete_snippet db i (some e)
        = (db, { status := "error", message := "Failed to delete snippet: " ++ e })
  ∧ Pg.list_tags db (some e) = [ "Error: " ++ e ]
  ∧ Pg.export_snippets db fm (some e) = "Export failed: " ++ e
  ∧ Pg.find_similar_snippets db i lim (some e)
        = RowsRes.err ("Failed to find similar snippets: " ++ e) :=
  ⟨rfl, rfl, rfl, rfl, rfl, rfl, rfl, rfl, rfl⟩

/-! ### Claim C8 -/

/-- Claim C8: after a successful delete, a get on the id reports absent and
a second delete reports not-found, on both backends. -/
theorem C8_delete_then_get (d : JsonData) (i : Nat) (db : PgDb)
    (hin : ∃ s ∈ d.snippets, s.id = i)
    (hone : db.rows.countP (fun r => r.id = i) = 1) :
    ((Json.delete_snippet d i).2.status = "success"
      ∧ Json.get_snippet (Json.delete_snippet d i).1 i = none
      ∧ (Json.delete_snippet (Json.delete_snippet d i).1 i).2.status = "error")
  ∧ ((Pg.delete_snippet db i none).2.status = "success"
      ∧ Pg.get_snippet (Pg.delete_snippet db i none).1 i none = GetRes.absent
      ∧ (Pg.delete_snippet (Pg.delete_snippet db i none).1 i none).2.status = "error") := by
  constructor
  · obtain ⟨s0, hs0, hid⟩ := hin
    have hlt : (d.snippets.filter (fun s => !(s.id = i))).length < d.snippets.length :=
      List.length_filter_lt_length_iff_exists.mpr ⟨s0, hs0, by simp [hid]⟩
    have hdel : Json.delete_snippet d i
        = ({ d with snippets := d.snippets.filter (fun s => !(s.id = i)) },
           { status := "success", message := "Deleted snippet " ++ toString i }) := by
      simp only [Json.delete_snippet]
      rw [if_pos hlt]
    refine ⟨by rw [hdel], ?_, ?_⟩
    · rw [hdel]
      exact List.find?_eq_none.mpr (fun x hx => by
        have h2 := (List.mem_filter.mp hx).2
        simpa using h2)
    · rw [hdel]
      simp only [Json.delete_snippet, List.filter_filter, Bool.and_self]
      rw [if_neg (lt_irrefl _)]
  · have hdel : Pg.delete_snippet db i none
        = ({ db with rows := db.rows.filter (fun r => !(r.id = i)) },
           { status := "success", message := "Deleted snippet " ++ toString i }) := by
      simp only [Pg.delete_snippet]
      rw [if_pos hone]
    refine ⟨by rw [hdel], ?_, ?_⟩
    · rw [hdel]
      have hfind : (db.rows.filter (fun r => !(r.id = i))).find? (fun r => r.id = i)
          = none :=
        List.find?_eq_none.mpr (fun x hx => by
          have h2 := (List.mem_filter.mp hx).2
          simpa using h2)
      simp [Pg.get_snippet, Pg.getRow, hfind]
    · rw [hdel]
      have hzero : (db.rows.filter (fun r => !(r.id = i))).countP (fun r => r.id = i)
          = 0 :=
        List.countP_eq_zero.mpr (fun x hx => by
          have h2 := (List.mem_filter.mp hx).2
          simpa using h2)
      simp only [Pg.delete_snippet, hzero]
      rw [if_neg (by omega)]

/-- Claim C8, witness: the deletions and lookups at a one-record store on
each backend. -/
theorem C8_witness :
    ((Json.delete_snippet dA 1).2.status = "success"
      ∧ Json.get_snippet (Json.delete_snippet dA 1).1 1 = none
      ∧ (Json.delete_snippet (Json.delete_snippet dA 1).1 1).2.status = "error")
  ∧ ((Pg.delete_snippet dbNeg 1 none).2.status = "success"
      ∧ Pg.get_snippet (Pg.delete_snippet dbNeg 1 none).1 1 none = GetRes.absent
      ∧ (Pg.delete_snippet (Pg.delete_snippet dbNeg 1 none).1 1 none).2.status = "error") :=
  C8_delete_then_get dA 1 dbNeg ⟨snipA, by simp [dA], rfl⟩ (by decide)

/-! ### Claim C9 -/

/-- One create or delete step preserves the id invariant and never decreases
the id counter. -/
theorem applyOp_WF (d : JsonData) (op : JOp) (h : WFData d) :
    WFData (applyOp d op) ∧ d.next_id ≤ (applyOp d op).next_id := by
  obtain ⟨hb, hn⟩ := h
  cases op with
  | create c k tg cx ct t =>
    refine ⟨⟨?_, ?_⟩, ?_⟩
    · intro s hs
      simp only [applyOp, Json.create_snippet, List.mem_append,
        List.mem_singleton] at hs ⊢
      rcases hs with hs | hs
      · exact Nat.lt_succ_of_lt (hb s hs)
      · rw [hs]
        exact Nat.lt_succ_self _
    · have hnotin : d.next_id ∉ d.snippets.map (fun s => s.id) := by
        intro hmem
        obtain ⟨s, hs, hid⟩ := List.mem_map.mp hmem
        exact absurd (hid ▸ hb s hs) (lt_irrefl _)
      simp only [applyOp, Json.create_snippet, List.map_append, List.map_cons,
        List.map_nil]
      exact hn.append (List.nodup_singleton _) (List.disjoint_singleton.mpr hnotin)
    · simp [applyOp, Json.create_snippet]
  | del i =>
    simp only [applyOp, Json.delete_snippet]
    split
    · refine ⟨⟨?_, ?_⟩, le_refl _⟩
      · intro s hs
        exact hb s (List.mem_filter.mp hs).1
      · exact List.Nodup.sublist ((List.filter_sublist _).map _) hn
    · exact ⟨⟨hb, hn⟩, le_refl _⟩

/-- The invariant and counter monotonicity hold across any sequence of
steps. -/
theorem applyOps_WF (ops : List JOp) : ∀ d : JsonData, WFData d →
    WFData (applyOps d ops) ∧ d.next_id ≤ (applyOps d ops).next_id := by
  induction ops with
  | nil => exact fun d h => ⟨h, le_refl _⟩
  | cons op rest ih =>
    intro d h
    have h1 := applyOp_WF d op h
    have h2 := ih (applyOp d op) h1.1
    exact ⟨h2.1, le_trans h1.2 h2.2⟩

/-- Claim C9: across any sequence of creates and deletes from a well-formed
store, ids stay unique and below the counter, the counter never decreases,
creation assigns `next_id` and increments it, and deletion leaves the
counter unchanged — so an id is never reused after deletion. -/
theorem C9_id_lifecycle (d : JsonData) (ops : List JOp) (hWF : WFData d) :
    WFData (applyOps d ops)
  ∧ d.next_id ≤ (applyOps d ops).next_id
  ∧ (∀ c k tg cx ct t, (Json.create_snippet d c k tg cx ct t).2.snippet_id
        = some d.next_id
      ∧ (Json.create_snippet d c k tg cx ct t).1.next_id = d.next_id + 1)
  ∧ (∀ i, (Json.delete_snippet d i).1.next_id = d.next_id) := by
  refine ⟨(applyOps_WF ops d hWF).1, (applyOps_WF ops d hWF).2, ?_, ?_⟩
  · exact fun c k tg cx ct t => ⟨rfl, rfl⟩
  · intro i
    simp only [Json.delete_snippet]
    split
    · rfl
    · rfl

/-- Claim C9, witness: a create followed by a delete from the empty
document keeps the store well-formed. -/
theorem C9_witness :
    WFData (applyOps loadDefault
      [ JOp.create "Smith v. Jones" "duty of care" [ "negligence" ] "" "civil" 0,
        JOp.del 1 ]) :=
  (C9_id_lifecycle loadDefault
    [ JOp.create "Smith v. Jones" "duty of care" [ "negligence" ] "" "civil" 0,
      JOp.del 1 ] ⟨by simp [loadDefault], by simp [loadDefault]⟩).1

/-! ### Claim C4 -/

/-- Claim C4: a successful create reports the assigned id, and a get on that
id returns a record with exactly the supplied field values (context and
case_type covering their Python defaults as ordinary values) and
`created_at ≤ updated_at`, on both backends. -/
theorem C4_create_then_get (d : JsonData) (embed : String → List ℚ) (db : PgDb)
    (cit kl : String) (tg : List String) (cx ct : String) (now : Nat)
    (hWF : ∀ s ∈ d.snippets, s.id < d.next_id)
    (hWFp : ∀ r ∈ db.rows, r.id < db.next_id) :
    ((Json.create_snippet d cit kl tg cx ct now).2.status = "success"
      ∧ (Json.create_snippet d cit kl tg cx ct now).2.snippet_id = some d.next_id
      ∧ ∃ s : Snip,
          Json.get_snippet (Json.create_snippet d cit kl tg cx ct now).1 d.next_id
            = some s
          ∧ s.citation = cit ∧ s.key_language = kl ∧ s.tags = tg ∧ s.context = cx
          ∧ s.case_type = ct ∧ s.created_at ≤ s.updated_at)
  ∧ ((Pg.create_snippet embed db cit kl tg cx ct now none).2.status = "success"
      ∧ (Pg.create_snippet embed db cit kl tg cx ct now none).2.snippet_id
          = some db.next_id
      ∧ ∃ r : PgRow,
          Pg.get_snippet (Pg.create_snippet embed db cit kl tg cx ct now none).1
            db.next_id none = GetRes.found r
          ∧ r.citation = cit ∧ r.key_language = kl ∧ r.tags = tg ∧ r.context = cx
          ∧ r.case_type = ct ∧ r.created_at ≤ r.updated_at) := by
  constructor
  · refine ⟨rfl, rfl,
      { id := d.next_id, citation := cit, key_language := kl, tags := tg,
        context := cx, case_type := ct, created_at := now, updated_at := now },
      ?_, rfl, rfl, rfl, rfl, rfl, le_refl now⟩
    unfold Json.get_snippet Json.create_snippet
    exact find?_middle _ d.snippets []
      _ (fun x hx => by simpa using Nat.ne_of_lt (hWF x hx)) (by simp)
  · refine ⟨rfl, rfl,
      { id := db.next_id, citation := cit, key_language := kl, tags := tg,
        context := cx, case_type := ct, created_at := now, updated_at := now,
        citation_embedding := (generate_embeddings embed cit kl cx).1,
        key_language_embedding := (generate_embeddings embed cit kl cx).2.1,
        combined_embedding := (generate_embeddings embed cit kl cx).2.2 },
      ?_, rfl, rfl, rfl, rfl, rfl, le_refl now⟩
    have hfind : Pg.getRow (Pg.create_snippet embed db cit kl tg cx ct now none).1
        db.next_id = some
          { id := db.next_id, citation := cit, key_language := kl, tags := tg,
            context := cx, case_type := ct, created_at := now, updated_at := now,
            citation_embedding := (generate_embeddings embed cit kl cx).1,
            key_language_embedding := (generate_embeddings embed cit kl cx).2.1,
            combined_embedding := (generate_embeddings embed cit kl cx).2.2 } := by
      unfold Pg.getRow Pg.create_snippet Pg.createRows
      exact find?_middle _ db.rows []
        _ (fun x hx => by simpa using Nat.ne_of_lt (hWFp x hx)) (by simp)
    simp [Pg.get_snippet, hfind]

/-- Claim C4, witness: the JSON roundtrip from the empty document at
concrete field values. -/
theorem C4_witness :
    ∃ s : Snip,
      Json.get_snippet
        (Json.create_snippet loadDefault "Smith v. Jones" "duty of care"
          [ "negligence" ] "" "civil" 3).1 loadDefault.next_id = some s
      ∧ s.citation = "Smith v. Jones" ∧ s.key_language = "duty of care"
      ∧ s.tags = [ "negligence" ] ∧ s.context = "" ∧ s.case_type = "civil"
      ∧ s.created_at ≤ s.updated_at :=
  (C4_create_then_get loadDefault embed0 dbNeg "Smith v. Jones" "duty of care"
    [ "negligence" ] "" "civil" 3 (by simp [loadDefault]) (by decide)).1.2.2

/-! ### Claims C5 and C10: update frame properties -/

theorem updRow_id (embed : String → List ℚ) (r : PgRow)
    (oc okl : Option String) (otg : Option (List String)) (ox oct : Option String)
    (now : Nat) : (Pg.updRow embed r oc okl otg ox oct now).id = r.id := by
  unfold Pg.updRow
  split <;> rfl

theorem updRow_created (embed : String → List ℚ) (r : PgRow)
    (oc okl : Option String) (otg : Option (List String)) (ox oct : Option String)
    (now : Nat) : (Pg.updRow embed r oc okl otg ox oct now).created_at = r.created_at := by
  unfold Pg.updRow
  split <;> rfl

/-- The Postgres update at a decomposed unique-id store: only the matching
row is rewritten, to the row the `UPDATE` computes. -/
theorem pg_update_spec (embed : String → List ℚ) (ppre ppost : List PgRow)
    (r : PgRow) (m i : Nat) (oc okl : Option String) (otg : Option (List String))
    (ox oct : Option String) (now : Nat)
    (hppre : ∀ x ∈ ppre, x.id ≠ i) (hppost : ∀ x ∈ ppost, x.id ≠ i) (hr : r.id = i) :
    Pg.update_snippet embed ⟨ppre ++ r :: ppost, m⟩ i oc okl otg ox oct now none
      = (⟨ppre ++ Pg.updRow embed r oc okl otg ox oct now :: ppost, m⟩,
         { status := "success", message := "Updated snippet " ++ toString i }) := by
  have hfind : Pg.getRow ⟨ppre ++ r :: ppost, m⟩ i = some r :=
    find?_middle _ ppre ppost r (fun x hx => by simpa using hppre x hx) (by simp [hr])
  have hmapf : ∀ x ∈ ppre,
      (if x.id = i
       then { Pg.updRow embed r oc okl otg ox oct now with
              id := x.id, created_at := x.created_at }
       else x) = x :=
    fun x hx => if_neg (hppre x hx)
  have hmapb : ∀ x ∈ ppost,
      (if x.id = i
       then { Pg.updRow embed r oc okl otg ox oct now with
              id := x.id, created_at := x.created_at }
       else x) = x :=
    fun x hx => if_neg (hppost x hx)
  have hself :
      (if r.id = i
       then { Pg.updRow embed r oc okl otg ox oct now with
              id := r.id, created_at := r.created_at }
       else r) = Pg.updRow embed r oc okl otg ox oct now := by
    rw [if_pos hr]
    rw [show r.id = (Pg.updRow embed r oc okl otg ox oct now).id from
      (updRow_id embed r oc okl otg ox oct now).symm]
    rw [show r.created_at = (Pg.updRow embed r oc okl otg ox oct now).created_at from
      (updRow_created embed r oc okl otg ox oct now).symm]
  unfold Pg.update_snippet Pg.updateRows
  rw [hfind]
  simp only [List.map_append, List.map_cons, map_pointwise_id _ ppre hmapf,
    map_pointwise_id _ ppost hmapb, hself, if_pos]

/-- Claim C5: updating only `tags` (a non-empty list) rewrites exactly the
target record's `tags` and `updated_at`, leaving its other fields and every
other stored record unchanged, on both backends. -/
theorem C5_update_only_tags (pre post : List Snip) (s : Snip) (n i : Nat)
    (ts : List String) (now : Nat) (embed : String → List ℚ)
    (ppre ppost : List PgRow) (r : PgRow) (m : Nat)
    (hpre : ∀ x ∈ pre, x.id ≠ i) (hs : s.id = i) (hts : ts ≠ [])
    (hppre : ∀ x ∈ ppre, x.id ≠ i) (hppost : ∀ x ∈ ppost, x.id ≠ i) (hr : r.id = i) :
    Json.update_snippet ⟨pre ++ s :: post, n⟩ i none none (some ts) none none now
      = (⟨pre ++ { s with tags := ts, updated_at := now } :: post, n⟩,
         { status := "success", message := "Updated snippet " ++ toString i })
  ∧ Pg.update_snippet embed ⟨ppre ++ r :: ppost, m⟩ i none none (some ts) none none
      now none
      = (⟨ppre ++ { r with tags := ts, updated_at := now } :: ppost, m⟩,
         { status := "success", message := "Updated snippet " ++ toString i }) := by
  constructor
  · have hupd : Json.updFields s none none (some ts) none none now
        = { s with tags := ts, updated_at := now } := by
      simp [Json.updFields, pyOr, pyOrL, listIsEmpty_false_of_ne ts hts]
    have hfirst := updateFirst_spec pre post s i none none (some ts) none none now
      hpre hs
    simp only [Json.update_snippet, hfirst, hupd, if_pos]
  · have hrow : Pg.updRow embed r none none (some ts) none none now
        = { r with tags := ts, updated_at := now } := rfl
    rw [pg_update_spec embed ppre ppost r m i none none (some ts) none none now
      hppre hppost hr, hrow]

/-- Claim C5, witness: the tags-only update of the single stored record on
each backend. -/
theorem C5_witness :
    Json.update_snippet ⟨[] ++ snipA :: [], 2⟩ 1 none none (some [ "tort" ]) none
      none 7
      = (⟨[] ++ { snipA with tags := [ "tort" ], updated_at := 7 } :: [], 2⟩,
         { status := "success", message := "Updated snippet " ++ toString 1 })
  ∧ Pg.update_snippet embed0 ⟨[] ++ rowNeg :: [], 2⟩ 1 none none (some [ "tort" ])
      none none 7 none
      = (⟨[] ++ { rowNeg with tags := [ "tort" ], updated_at := 7 } :: [], 2⟩,
         { status := "success", message := "Updated snippet " ++ toString 1 }) :=
  C5_update_only_tags [] [] snipA 2 1 [ "tort" ] 7 embed0 [] [] rowNeg 2
    (by simp) rfl (by simp) (by simp) (by simp) rfl

/-- Claim C10, counterexample: on the Postgres backend an explicitly empty
(falsy) `tags` list is not `NULL`, so `COALESCE($1, tags)` overwrites the
stored tags with the empty list — the all-falsy update changes a content
field while still reporting success. -/
theorem C10_pg_empty_tags_cex :
    dbNeg.rows.map (fun r => r.tags) = [ [ "negligence" ] ]
  ∧ truthyL (some ([] : List String)) = false
  ∧ (Pg.update_snippet embed0 dbNeg 1 none none (some []) none none 5 none).2.status
      = "success"
  ∧ (Pg.update_snippet embed0 dbNeg 1 none none (some []) none none 5 none).1.rows.map
      (fun r => r.tags) = [ [] ] :=
  ⟨rfl, rfl, rfl, rfl⟩

/-- Claim C10, amended: an update whose optional arguments are all falsy
changes no content field, refreshes `updated_at` and reports success — on
the JSON backend for every falsy combination (None, empty string, empty
list), and on the Postgres backend when `tags` and `case_type` are absent
(`None`); a falsy-but-present empty `tags` list or empty `case_type` string
would be written there by `COALESCE`. -/
theorem C10_falsy_update_noop (pre post : List Snip) (s : Snip) (n i : Nat)
    (now : Nat) (oc okl : Option String) (otg : Option (List String))
    (ox oct : Option String) (embed : String → List ℚ)
    (ppre ppost : List PgRow) (r : PgRow) (m : Nat)
    (pc pkl px : Option String)
    (hpre : ∀ x ∈ pre, x.id ≠ i) (hs : s.id = i)
    (hc : truthyS oc = false) (hk : truthyS okl = false) (htg : truthyL otg = false)
    (hx : truthyS ox = false) (hct : truthyS oct = false)
    (hppre : ∀ x ∈ ppre, x.id ≠ i) (hppost : ∀ x ∈ ppost, x.id ≠ i) (hr : r.id = i)
    (hpc : truthyS pc = false) (hpkl : truthyS pkl = false)
    (hpx : truthyS px = false) :
    Json.update_snippet ⟨pre ++ s :: post, n⟩ i oc okl otg ox oct now
      = (⟨pre ++ { s with updated_at := now } :: post, n⟩,
         { status := "success", message := "Updated snippet " ++ toString i })
  ∧ Pg.update_snippet embed ⟨ppre ++ r :: ppost, m⟩ i pc pkl none px none now none
      = (⟨ppre ++ { r with updated_at := now } :: ppost, m⟩,
         { status := "success", message := "Updated snippet " ++ toString i }) := by
  constructor
  · have hupd : Json.updFields s oc okl otg ox oct now
        = { s with updated_at := now } := by
      simp [Json.updFields, pyOr_falsy _ _ hc, pyOr_falsy _ _ hk,
        pyOrL_falsy _ _ htg, pyOr_falsy _ _ hx, pyOr_falsy _ _ hct]
    have hfirst := updateFirst_spec pre post s i oc okl otg ox oct now hpre hs
    simp only [Json.update_snippet, hfirst, hupd, if_pos]
  · have hrow : Pg.updRow embed r pc pkl none px none now
        = { r with updated_at := now } := by
      unfold Pg.updRow
      rw [hpc, hpkl, hpx]
      rfl
    rw [pg_update_spec embed ppre ppost r m i pc pkl none px none now
      hppre hppost hr, hrow]

/-- Claim C10, witness: the no-field update of the single stored record on
each backend, with empty-string and empty-list falsy arguments on the JSON
side. -/
theorem C10_witness :
    Json.update_snippet ⟨[] ++ snipA :: [], 2⟩ 1 (some "") none (some []) none
      (some "") 9
      = (⟨[] ++ { snipA with updated_at := 9 } :: [], 2⟩,
         { status := "success", message := "Updated snippet " ++ toString 1 })
  ∧ Pg.update_snippet embed0 ⟨[] ++ rowNeg :: [], 2⟩ 1 (some "") none none
      (some "") none 9 none
      = (⟨[] ++ { rowNeg with updated_at := 9 } :: [], 2⟩,
         { status := "success", message := "Updated snippet " ++ toString 1 }) :=
  C10_falsy_update_noop [] [] snipA 2 1 9 (some "") none (some []) none (some "")
    embed0 [] [] rowNeg 2 (some "") none (some "")
    (by simp) rfl rfl rfl rfl rfl rfl (by simp) (by simp) rfl rfl rfl rfl

/-! ### Claim C2 -/

/-- With a wildcard-free query, the Postgres free-text condition is the
case-insensitive substring disjunction over the three text fields. -/
theorem pgTextHit_eq (r : PgRow) (q : String)
    (hwild : ∀ c ∈ lowerL q, c ≠ '%' ∧ c ≠ '_' ∧ c ≠ '\\') :
    pgTextHit r q = (ciContains r.citation q || ciContains r.key_language q ||
      ciContains r.context q) := by
  unfold pgTextHit
  rw [ilikeSub_eq_ciContains r.citation q hwild, ilikeSub_eq_ciContains
    r.key_language q hwild, ilikeSub_eq_ciContains r.context q hwild]

/-- With both criteria truthy, the JSON `if`/`elif` chain ORs the text hit
with the tag hit. -/
theorem matchSnip_both (q : String) (ts : List String) (s : Snip)
    (hq : q ≠ "") (hts : ts ≠ []) :
    Json.matchSnip q (some ts) s = (Json.textHit s q || Json.tagHit s ts) := by
  have hqe := isEmpty_false_of_ne q hq
  have hte := listIsEmpty_false_of_ne ts hts
  cases htH : Json.textHit s q <;> cases htG : Json.tagHit s ts <;>
    simp [Json.matchSnip, truthyL, hqe, hte, htH, htG]

/-- Claim C2, counterexample: on the JSON backend a snippet that matches the
free-text filter is returned even though it carries none of the supplied
tags — the two criteria are OR-ed by the `elif` chain, not AND-ed. -/
theorem C2_json_or_cex :
    snipA ∈ Json.search_snippets dA "a" (some [ "x" ])
  ∧ Json.tagHit snipA [ "x" ] = false := by
  constructor
  · have h : Json.search_snippets dA "a" (some [ "x" ]) = [ snipA ] := rfl
    rw [h]
    exact List.mem_singleton.mpr rfl
  · rfl

/-- Claim C2, amended: with a non-empty wildcard-free query and a non-empty
tag list, the Postgres backend includes a row iff it passes the
case-insensitive substring filter AND carries a supplied tag (the claim as
stated), while the JSON backend includes a snippet iff it passes the
substring filter OR carries a supplied tag. -/
theorem C2_both_criteria_semantics (d : JsonData) (db : PgDb) (q : String)
    (ts : List String) (hq : q ≠ "") (hts : ts ≠ [])
    (hwild : ∀ c ∈ lowerL q, c ≠ '%' ∧ c ≠ '_' ∧ c ≠ '\\') :
    (∀ r : PgRow, r ∈ Pg.searchRows db q (some ts) ↔
       r ∈ db.rows ∧ ((ciContains r.citation q || ciContains r.key_language q ||
         ciContains r.context q) && tagsOverlap r.tags ts) = true)
  ∧ (∀ s : Snip, s ∈ Json.search_snippets d q (some ts) ↔
       s ∈ d.snippets ∧ (Json.textHit s q || Json.tagHit s ts) = true) := by
  constructor
  · intro r
    have hcond : (!q.isEmpty && truthyL (some ts)) = true := by
      rw [isEmpty_false_of_ne q hq]
      simp [truthyL, listIsEmpty_false_of_ne ts hts]
    have hbase : Pg.searchRows db q (some ts)
        = (db.rows.filter (fun r => pgTextHit r q &&
            tagsOverlap r.tags ((some ts).getD []))).mergeSort byUpdatedDesc := by
      simp only [Pg.searchRows]
      rw [if_pos hcond]
    rw [hbase, (List.mergeSort_perm _ _).mem_iff, List.mem_filter,
      pgTextHit_eq r q hwild]
    rfl
  · intro s
    unfold Json.search_snippets
    rw [List.mem_filter, matchSnip_both q ts s hq hts]

/-- Claim C2, witness: the amended membership condition at the one-snippet
store and concrete criteria. -/
theorem C2_witness :
    snipA ∈ Json.search_snippets dA "a" (some [ "x" ]) ↔
      snipA ∈ dA.snippets
        ∧ (Json.textHit snipA "a" || Json.tagHit snipA [ "x" ]) = true :=
  (C2_both_criteria_semantics dA dbNeg "a" [ "x" ] (by decide) (by decide)
    (by decide)).2 snipA

/-! ### Claim C6 -/

theorem byUpdatedDesc_trans (a b c : PgRow) (hab : byUpdatedDesc a b = true)
    (hbc : byUpdatedDesc b c = true) : byUpdatedDesc a c = true := by
  simp only [byUpdatedDesc, decide_eq_true_eq] at hab hbc ⊢
  exact le_trans hbc hab

theorem byUpdatedDesc_total (a b : PgRow) :
    (byUpdatedDesc a b || byUpdatedDesc b a) = true := by
  simp only [byUpdatedDesc, Bool.or_eq_true, decide_eq_true_eq]
  exact Nat.le_total b.updated_at a.updated_at

theorem mergeSort_byUpdatedDesc_pairwise (l : List PgRow) :
    (l.mergeSort byUpdatedDesc).Pairwise (fun a b => b.updated_at ≤ a.updated_at) := by
  have h := List.sorted_mergeSort byUpdatedDesc_trans byUpdatedDesc_total l
  exact h.imp (fun hab => by simpa [byUpdatedDesc] using hab)

/-- Claim C6, counterexample: the JSON backend returns matches in stored
order with no sorting step, so a store whose stored order ascends in
`updated_at` comes back unsorted — refuting most-recently-updated-first for
the JSON backend. -/
theorem C6_json_order_cex :
    Json.search_snippets dAsc "" none = [ snipOld, snipNew ]
  ∧ snipOld.updated_at < snipNew.updated_at
  ∧ ¬ (Json.search_snippets dAsc "" none).Pairwise
        (fun a b => b.updated_at ≤ a.updated_at) := by
  refine ⟨rfl, by decide, ?_⟩
  intro h
  rw [show Json.search_snippets dAsc "" none = [ snipOld, snipNew ] from rfl] at h
  have h2 := (List.pairwise_cons.mp h).1 snipNew (List.mem_singleton.mpr rfl)
  exact absurd h2 (by decide)

/-- Claim C6, amended: the Postgres backend orders every search result by
`updated_at` descending and returns (a permutation of) the whole table when
no criterion is supplied; the JSON backend returns matches in stored order
(a sublist of the store) and the whole collection, unsorted, when no
criterion is supplied. -/
theorem C6_search_order (db : PgDb) (d : JsonData) (q : String)
    (tags : Option (List String)) :
    (Pg.searchRows db q tags).Pairwise (fun a b => b.updated_at ≤ a.updated_at)
  ∧ (Pg.searchRows db "" none).Perm db.rows
  ∧ Pg.search_snippets db q tags none = RowsRes.rows (Pg.searchRows db q tags)
  ∧ (Json.search_snippets d q tags).Sublist d.snippets
  ∧ Json.search_snippets d "" none = d.snippets := by
  refine ⟨?_, ?_, rfl, List.filter_sublist _, ?_⟩
  · simp only [Pg.searchRows]
    exact mergeSort_byUpdatedDesc_pairwise _
  · show (db.rows.mergeSort byUpdatedDesc).Perm db.rows
    exact List.mergeSort_perm db.rows byUpdatedDesc
  · exact List.filter_eq_self.mpr (fun a _ => rfl)

/-! ### Claim C3 -/

theorem take_mergeSort_nil {α : Type} (le : α → α → Bool) (lim : Nat)
    {l : List α} (h : l = []) : ((l.mergeSort le).take lim) = [] := by
  rw [h, List.mergeSort_nil, List.take_nil]

/-- Every row a semantic search returns is stored and passes the executable
threshold test. -/
theorem semanticSearchRows_mem (embed : String → List ℚ) (db : PgDb) (q : String)
    (lim : Nat) (t : ℚ) (tags : Option (List String)) (r : PgRow)
    (hr : r ∈ Pg.semanticSearchRows embed db q lim t tags) :
    r ∈ db.rows ∧ sgnSq t ≤ simKey (embed q) r.combined_embedding := by
  simp only [Pg.semanticSearchRows] at hr
  have h1 := (List.mergeSort_perm _ _).mem_iff.mp ((List.take_sublist _ _).subset hr)
  by_cases htg : truthyL tags = true
  · rw [if_pos htg] at h1
    have h2 := List.mem_filter.mp h1
    refine ⟨h2.1, ?_⟩
    have h3 := (Bool.and_eq_true _ _).mp h2.2
    simpa using h3.2
  · rw [if_neg htg] at h1
    have h2 := List.mem_filter.mp h1
    refine ⟨h2.1, ?_⟩
    simpa using h2.2

/-- Claim C3: semantic search returns only rows whose similarity score
(1 minus cosine distance to the query embedding) is at least the inclusive
threshold, returns at most `lim` rows, and with threshold 1.1 returns the
empty list on every corpus; the tool's healthy path returns exactly these
rows.  (The Python defaults are `lim = 10`, `threshold = 0.7`.) -/
theorem C3_semantic_search_threshold (embed : String → List ℚ) (db : PgDb)
    (q : String) (lim : Nat) (t : ℚ) (tags : Option (List String))
    (hq : 0 < dotP (embed q) (embed q))
    (hrows : ∀ r ∈ db.rows, 0 < dotP r.combined_embedding r.combined_embedding) :
    (∀ r ∈ Pg.semanticSearchRows embed db q lim t tags,
        (t : ℝ) ≤ similarityScore (embed q) r.combined_embedding)
  ∧ (Pg.semanticSearchRows embed db q lim t tags).length ≤ lim
  ∧ Pg.semanticSearchRows embed db q lim (11 / 10) tags = []
  ∧ Pg.semantic_search embed db q lim t tags none
      = RowsRes.rows (Pg.semanticSearchRows embed db q lim t tags) := by
  refine ⟨?_, ?_, ?_, rfl⟩
  · intro r hr
    obtain ⟨hmem, hkey⟩ := semanticSearchRows_mem embed db q lim t tags r hr
    exact (threshold_le_simKey_iff (embed q) r.combined_embedding t hq
      (hrows r hmem)).mp hkey
  · simp only [Pg.semanticSearchRows]
    exact List.length_take_le _ _
  · have hfalse : ∀ e : List ℚ, ¬ (sgnSq (11 / 10 : ℚ) ≤ simKey (embed q) e) := by
      intro e h
      have h1 := simKey_le_one (embed q) e
      have h2 : sgnSq (11 / 10 : ℚ) = 121 / 100 := by norm_num [sgnSq]
      rw [h2] at h
      linarith
    simp only [Pg.semanticSearchRows]
    by_cases htg : truthyL tags = true
    · rw [if_pos htg]
      refine take_mergeSort_nil _ _ (List.filter_eq_nil_iff.mpr ?_)
      intro a ha
      simp only [Bool.and_eq_true, decide_eq_true_eq, not_and]
      exact fun _ => hfalse a.combined_embedding
    · rw [if_neg htg]
      refine take_mergeSort_nil _ _ (List.filter_eq_nil_iff.mpr ?_)
      intro a ha
      simpa using hfalse a.combined_embedding

/-- Claim C3, witness: at the one-row corpus with unit embeddings, the 1.1
threshold empties the result. -/
theorem C3_witness :
    Pg.semanticSearchRows embed0 dbNeg "q" 10 (11 / 10) none = [] :=
  (C3_semantic_search_threshold embed0 dbNeg "q" 10 0 none (by norm_num [dotP, embed0])
    (by
      intro r hr
      rw [List.mem_singleton.mp hr]
      norm_num [dotP, rowNeg])).2.2.1

/-! ### Claim C7 -/

theorem bySimDesc_trans (qv : List ℚ) (a b c : PgRow)
    (hab : bySimDesc qv a b = true) (hbc : bySimDesc qv b c = true) :
    bySimDesc qv a c = true := by
  simp only [bySimDesc, decide_eq_true_eq] at hab hbc ⊢
  exact le_trans hbc hab

theorem bySimDesc_total (qv : List ℚ) (a b : PgRow) :
    (bySimDesc qv a b || bySimDesc qv b a) = true := by
  simp only [bySimDesc, Bool.or_eq_true, decide_eq_true_eq]
  exact le_total (simKey qv b.combined_embedding) (simKey qv a.combined_embedding)

/-- Claim C7: for a stored reference id, find-similar returns at most `lim`
rows (Python default 5), never the reference id itself, ranked by cosine
similarity to the reference row's combined embedding, descending. -/
theorem C7_find_similar (db : PgDb) (i lim : Nat) (ref : PgRow)
    (href : Pg.getRow db i = some ref)
    (hrows : ∀ r ∈ db.rows, 0 < dotP r.combined_embedding r.combined_embedding) :
    ∃ rs : List PgRow,
      Pg.find_similar_snippets db i lim none = RowsRes.rows rs
      ∧ rs.length ≤ lim
      ∧ (∀ r ∈ rs, r.id ≠ i)
      ∧ rs.Pairwise (fun a b =>
          cosineSimilarity ref.combined_embedding b.combined_embedding
            ≤ cosineSimilarity ref.combined_embedding a.combined_embedding) := by
  have hq : 0 < dotP ref.combined_embedding ref.combined_embedding :=
    hrows ref (List.mem_of_find?_eq_some href)
  refine ⟨((db.rows.filter (fun r => !(r.id = i))).mergeSort
      (bySimDesc ref.combined_embedding)).take lim, ?_, List.length_take_le _ _, ?_, ?_⟩
  · unfold Pg.find_similar_snippets Pg.findSimilarRows
    rw [href]
  · intro r hr
    have h1 := (List.mergeSort_perm _ _).mem_iff.mp ((List.take_sublist _ _).subset hr)
    have h2 := (List.mem_filter.mp h1).2
    simpa using h2
  · have hp := List.sorted_mergeSort (bySimDesc_trans ref.combined_embedding)
      (bySimDesc_total ref.combined_embedding)
      (db.rows.filter (fun r => !(r.id = i)))
    have htake := List.Pairwise.sublist (List.take_sublist lim _) hp
    refine List.Pairwise.imp_of_mem ?_ htake
    intro a b hma hmb hab
    have hma2 : a ∈ db.rows :=
      (List.mem_filter.mp ((List.mergeSort_perm _ _).mem_iff.mp
        ((List.take_sublist _ _).subset hma))).1
    have hmb2 : b ∈ db.rows :=
      (List.mem_filter.mp ((List.mergeSort_perm _ _).mem_iff.mp
        ((List.take_sublist _ _).subset hmb))).1
    have hkey : simKey ref.combined_embedding b.combined_embedding
        ≤ simKey ref.combined_embedding a.combined_embedding := by
      simpa [bySimDesc] using hab
    exact (simKey_le_simKey_iff ref.combined_embedding b.combined_embedding
      a.combined_embedding hq (hrows b hmb2) (hrows a hma2)).mp hkey

/-- Claim C7, witness: find-similar at the one-row corpus (the reference row
itself is excluded, so the result is within the cap and trivially
ranked). -/
theorem C7_witness :
    ∃ rs : List PgRow,
      Pg.find_similar_snippets dbNeg 1 5 none = RowsRes.rows rs
      ∧ rs.length ≤ 5
      ∧ (∀ r ∈ rs, r.id ≠ 1)
      ∧ rs.Pairwise (fun a b =>
          cosineSimilarity rowNeg.combined_embedding b.combined_embedding
            ≤ cosineSimilarity rowNeg.combined_embedding a.combined_embedding) :=
  C7_find_similar dbNeg 1 5 rowNeg rfl
    (by
      intro r hr
      rw [List.mem_singleton.mp hr]
      norm_num [dotP, rowNeg])

end LegalSnips
